import Mathlib

/-
Verification development for the quiz session engine of the wxlin1983/lingo
repository.  The authoritative implementation is the current single-file
FastAPI application (repository file `src/main.py`, the "wlingo" engine);
its data model (pydantic classes `Question`, `SessionData`, `AnswerRecord`),
its global session dictionary, the lazy-expiry lookup `get_active_session`,
the route handlers `start_quiz_session`, `get_question_data`,
`submit_answer`, `get_result_data`, `reset_session`, and the question
generation pipeline (`VocabularyManager`, `QuizGenerator._generate_options`,
`RandomQuizGenerator.generate`) are shallowly embedded below.

Modelling conventions:
- Wall-clock time is an integer number of minutes (`Int`); `datetime.now()`
  becomes an explicit `now` argument threaded into every operation.
- Python's global `random` generator is an oracle `g : Nat → Nat` together
  with a draw counter `k : Nat`; each primitive draw consumes `g k` and
  advances the counter, so consecutive draws are independent oracle values.
  `random.sample`/`random.shuffle` pick positions with `g k % remaining`.
- The global dict `sessions` is an association list with first-match lookup;
  `del` removes the key, assignment replaces the first binding or appends.
- Python `round` on the exactly-representable quotients reachable here
  (`total ≤ 15`) agrees with round-half-to-even on rationals, which is what
  `pyRound` implements.
-/

namespace Wlingo

/-- Multiple-choice question (pydantic model `Question`). -/
structure Question where
  word : String
  translation : String
  options : List String
deriving DecidableEq, Repr

/-- Record of one submitted answer (pydantic model `AnswerRecord`). -/
structure AnswerRecord where
  word : String
  user_answer : String
  correct_answer : String
  is_correct : Bool
  attempted : Bool
deriving DecidableEq, Repr

/-- Per-session state (pydantic model `SessionData`).  The code's
`answers: List[Dict[str, Any]]` only ever holds `AnswerRecord`-shaped
values appended by `submit_answer`, so it is typed as such here. -/
structure SessionData where
  prepared_questions : List Question
  correct_count : Nat
  total_questions : Nat
  answers : List AnswerRecord
  created_at : Int
  topic : String
  mode : String
deriving DecidableEq, Repr

/-- One vocabulary entry (a row of a topic CSV). -/
structure WordPair where
  word : String
  translation : String
deriving DecidableEq, Repr

/-- The process-wide `sessions: Dict[str, SessionData]` as an association
list keyed by session id. -/
abbrev Store := List (String × SessionData)

/-- `VocabularyManager.vocab_sets: Dict[str, List[...]]` as an association
list (Python dicts iterate in insertion order). -/
abbrev Vocab := List (String × List WordPair)

/-- Exact-match dictionary lookup (`sessions[session_id]` / `in` test). -/
def lookupStore : Store → String → Option SessionData
  | [], _ => none
  | p :: rest, sid => if p.1 = sid then some p.2 else lookupStore rest sid

/-- Dictionary deletion `del sessions[session_id]` (keys are unique in a
Python dict, so removing every binding of the key is the same operation). -/
def eraseStore : Store → String → Store
  | [], _ => []
  | p :: rest, sid => if p.1 = sid then eraseStore rest sid else p :: eraseStore rest sid

/-- Dictionary assignment `sessions[new_id] = data`. -/
def setStore : Store → String → SessionData → Store
  | [], sid, v => [(sid, v)]
  | p :: rest, sid, v => if p.1 = sid then (sid, v) :: rest else p :: setStore rest sid v

/-- `Settings.SESSION_TIMEOUT_MINUTES = 120`. -/
def sessionTimeoutMinutes : Int := 120

/-- `Settings.TEST_SIZE = 15`. -/
def testSize : Nat := 15

/-- Lazy-expiry session lookup `get_active_session`: a falsy (empty) or
unknown id yields `None`; a session strictly older than the timeout is
deleted from the store and `None` is returned; otherwise the session. -/
def getActiveSession (now : Int) (store : Store) (sid : String) :
    Option SessionData × Store :=
  if sid = "" then (none, store)
  else
    match lookupStore store sid with
    | none => (none, store)
    | some s =>
      if sessionTimeoutMinutes < now - s.created_at then (none, eraseStore store sid)
      else (some s, store)

/-- Python's built-in `round` (round half to even) on the exact rational
`num / den`, for `den > 0`. -/
def pyRound (num den : Nat) : Nat :=
  if 2 * (num % den) < den then num / den
  else if den < 2 * (num % den) then num / den + 1
  else if (num / den) % 2 = 0 then num / den else num / den + 1

/-- Outcome of `GET /api/quiz/{index}` (`get_question_data`). -/
inductive QuestionResult where
  | sessionInvalid
  | indexError
  | ok (word : String) (options : List String) (current_index : Nat)
      (total_questions : Nat) (answer_record : Option AnswerRecord)
deriving DecidableEq, Repr

/-- Outcome of `POST /submit_answer` (`submit_answer`).  The code answers
the missing-session case and the out-of-range `current_index` case with the
same "Invalid session" response, reflected by a single constructor. -/
inductive SubmitResult where
  | invalidSession
  | alreadyAnswered
  | invalidOption
  | ok (record : AnswerRecord)
deriving DecidableEq, Repr

/-- Outcome of `GET /api/result` (`get_result_data`). -/
inductive ResultData where
  | sessionInvalid
  | ok (correct_count : Nat) (total_questions : Nat) (score_percentage : Nat)
      (answers : List AnswerRecord)
deriving DecidableEq, Repr

/-- Placeholder used where the code indexes `prepared_questions[i]` under a
guard that already established `i < total_questions`; in every reachable
session `total_questions = prepared_questions.length`, so the default is
never produced. -/
def defaultQuestion : Question := ⟨"", "", []⟩

/-- Route `get_question_data`: validate the session, bound-check the index
against `total_questions`, and return the frozen question together with the
stored answer record at that index, if any. -/
def getQuestionData (now : Int) (store : Store) (sid : String) (index : Int) :
    QuestionResult × Store :=
  match getActiveSession now store sid with
  | (none, st) => (.sessionInvalid, st)
  | (some s, st) =>
    if 0 ≤ index ∧ index < (s.total_questions : Int) then
      let i := index.toNat
      let q := s.prepared_questions.getD i defaultQuestion
      (.ok q.word q.options i s.total_questions s.answers[i]?, st)
    else (.indexError, st)

/-- Route `submit_answer`: validate session and `current_index`, reject an
index inside the recorded answers ("Already answered"), bound-check the
chosen option index, then mark correctness by exact string equality,
increment `correct_count` iff correct, append the record, and write the
mutated session back (the Python code mutates the stored object in place). -/
def submitAnswer (now : Int) (store : Store) (sid : String)
    (current_index selected_option_index : Int) : SubmitResult × Store :=
  match getActiveSession now store sid with
  | (none, st) => (.invalidSession, st)
  | (some s, st) =>
    if 0 ≤ current_index ∧ current_index < (s.total_questions : Int) then
      let i := current_index.toNat
      if i < s.answers.length then (.alreadyAnswered, st)
      else
        let q := s.prepared_questions.getD i defaultQuestion
        if 0 ≤ selected_option_index ∧ selected_option_index < (q.options.length : Int) then
          let user_answer := q.options.getD selected_option_index.toNat ""
          let is_correct : Bool := decide (user_answer = q.translation)
          let record : AnswerRecord :=
            ⟨q.word, user_answer, q.translation, is_correct, true⟩
          let s1 : SessionData :=
            { s with
              correct_count := s.correct_count + (if is_correct then 1 else 0),
              answers := s.answers ++ [record] }
          (.ok record, setStore st sid s1)
        else (.invalidOption, st)
    else (.invalidSession, st)

/-- Route `get_result_data`: no completeness check is performed; a valid
session always yields its current counts, the rounded percentage (0 when
there are no questions), and the answers recorded so far. -/
def getResultData (now : Int) (store : Store) (sid : String) :
    ResultData × Store :=
  match getActiveSession now store sid with
  | (none, st) => (.sessionInvalid, st)
  | (some s, st) =>
    (.ok s.correct_count s.total_questions
      (if 0 < s.total_questions then pyRound (s.correct_count * 100) s.total_questions else 0)
      s.answers, st)

/-- Route `reset_session`: delete the session if present (idempotent). -/
def resetSession (store : Store) (sid : String) : Store :=
  eraseStore store sid

/-- `VocabularyManager.get_words`: the topic's word list, `[]` if unknown. -/
def getWords : Vocab → String → List WordPair
  | [], _ => []
  | p :: rest, topic => if p.1 = topic then p.2 else getWords rest topic

/-- One entry of `VocabularyManager.get_topics()`. -/
structure TopicInfo where
  id : String
  name : String
  count : Nat
deriving DecidableEq, Repr

/-- Python `key.replace("_", " ")` for the single-character pattern used by
`get_topics`, i.e. a character-by-character substitution. -/
def replaceUnderscores (s : String) : String :=
  ⟨s.data.map (fun c => if c = '_' then ' ' else c)⟩

/-- Helper for `titleAscii`: the Boolean argument records whether the
previous character was a letter. -/
def titleAux : Bool → List Char → List Char
  | _, [] => []
  | prev, c :: cs =>
    (if c.isAlpha then (if prev then c.toLower else c.toUpper) else c) :: titleAux c.isAlpha cs

/-- Python `str.title()` restricted to ASCII letters: a letter that follows
a non-letter is uppercased, a letter that follows a letter is lowercased. -/
def titleAscii (s : String) : String := ⟨titleAux false s.data⟩

/-- Display name built by `get_topics`: `key.replace("_", " ").title()`. -/
def displayName (key : String) : String := titleAscii (replaceUnderscores key)

/-- Stable insertion of a topic into a list sorted by display name. -/
def insertTopic (t : TopicInfo) : List TopicInfo → List TopicInfo
  | [] => [t]
  | u :: rest => if t.name ≤ u.name then t :: u :: rest else u :: insertTopic t rest

/-- Stable sort by display name, modelling `topics.sort(key=...)` (Python's
sort is stable; insertion sort realises the same unique stable result). -/
def sortTopics : List TopicInfo → List TopicInfo
  | [] => []
  | t :: rest => insertTopic t (sortTopics rest)

/-- `VocabularyManager.get_topics`: id, prettified display name and word
count for every loaded topic, sorted by display name. -/
def getTopics (v : Vocab) : List TopicInfo :=
  sortTopics (v.map (fun p => ⟨p.1, displayName p.1, p.2.length⟩))

/-- The distinct wrong translations
`{w["translation"] for w in all_words} - {correct}`, as the
first-occurrence-ordered duplicate-free list (set iteration order is
unspecified in Python and never observable through the properties below:
the list is only sampled from, listed into a shuffle, or measured). -/
def distinctWrongs (correct : String) (all_words : List WordPair) : List String :=
  ((all_words.map WordPair.translation).dedup).filter (fun t => decide (t ≠ correct))

/-- The `while len(incorrect) < 3: incorrect.append(f"Option {len+1}")`
loop of `_generate_options`; the loop body runs at most three times, which
the fuel argument makes structural. -/
def padLoop : Nat → List String → List String
  | 0, l => l
  | fuel + 1, l =>
    if l.length < 3 then padLoop fuel (l ++ ["Option " ++ toString (l.length + 1)]) else l

/-- Deterministic placeholder padding of the wrong options up to three. -/
def padOptions (l : List String) : List String := padLoop 3 l

/-- `random.sample(l, n)` for `n ≤ len(l)`: draw `n` distinct positions
without replacement, each draw consuming one oracle value.  Removal is by
first occurrence of the drawn value, which produces the same multiset of
outcomes as positional removal.  Returns the sample and the advanced draw
counter.  (Python raises when `n > len(l)`; call sites never do that, and
the model then simply stops early.) -/
def sample {α : Type} [DecidableEq α] (g : Nat → Nat) :
    Nat → List α → Nat → List α × Nat
  | k, _, 0 => ([], k)
  | k, [], _ + 1 => ([], k)
  | k, a0 :: l1, n + 1 =>
    let l := a0 :: l1
    let a := l.get ⟨g k % l.length, Nat.mod_lt _ (Nat.succ_pos _)⟩
    let res := sample g (k + 1) (l.erase a) n
    (a :: res.1, res.2)

/-- `random.shuffle(l)`: a uniformly drawn permutation, modelled as a full
sample without replacement driven by the oracle. -/
def shuffle {α : Type} [DecidableEq α] (g : Nat → Nat) (k : Nat) (l : List α) :
    List α × Nat :=
  sample g k l l.length

/-- `QuizGenerator._generate_options`: three wrong options — a random
sample of the distinct wrong translations when at least three exist,
otherwise all of them padded with placeholder strings — prepended with the
correct translation and shuffled. -/
def generateOptions (g : Nat → Nat) (k : Nat) (correct : String)
    (all_words : List WordPair) : List String × Nat :=
  let wrongs := distinctWrongs correct all_words
  if wrongs.length < 3 then
    shuffle g k (correct :: padOptions wrongs)
  else
    let res := sample g k wrongs 3
    shuffle g res.2 (correct :: res.1)

/-- The question-building comprehension of `RandomQuizGenerator.generate`,
threading the oracle counter through the per-word option generation. -/
def buildQuestions (g : Nat → Nat) (all_words : List WordPair) :
    Nat → List WordPair → List Question × Nat
  | k, [] => ([], k)
  | k, item :: rest =>
    let opts := generateOptions g k item.translation all_words
    let qs := buildQuestions g all_words opts.2 rest
    (⟨item.word, item.translation, opts.1⟩ :: qs.1, qs.2)

/-- `RandomQuizGenerator.generate`: empty for an empty pool, otherwise a
random sample of `min count poolSize` words, each turned into a question
whose options are generated against the entire topic pool. -/
def generate (g : Nat → Nat) (k : Nat) (v : Vocab) (topic : String)
    (count : Nat) : List Question × Nat :=
  let word_list := getWords v topic
  if word_list = [] then ([], k)
  else
    let sel := sample g k word_list (min count word_list.length)
    buildQuestions g word_list sel.2 sel.1

/-- The topic-validation fallback at the top of `start_quiz_session`: an
unknown or empty topic is replaced by the first topic by display name, or
by the literal `"default_dummy"` when no topics are loaded. -/
def resolveTopic (v : Vocab) (topic : String) : String :=
  if getWords v topic = [] then
    match getTopics v with
    | [] => "default_dummy"
    | t :: _ => t.id
  else topic

/-- The `SessionData` value `start_quiz_session` constructs. -/
def startedSession (g : Nat → Nat) (k : Nat) (v : Vocab)
    (topic mode : String) (now : Int) : SessionData :=
  ⟨(generate g k v (resolveTopic v topic) testSize).1, 0,
    (generate g k v (resolveTopic v topic) testSize).1.length, [], now,
    resolveTopic v topic, mode⟩

/-- Route `start_quiz_session`: resolve the topic, generate the questions
(`QuizFactory.create` returns `RandomQuizGenerator` for every mode), and
unconditionally store a fresh session under the new id.  There is no
failure outcome. -/
def startQuizSession (g : Nat → Nat) (k : Nat) (v : Vocab) (store : Store)
    (topic mode newId : String) (now : Int) : String × Store :=
  (newId, setStore store newId (startedSession g k v topic mode now))

/-- One client-visible operation on the running process, with its explicit
time stamp and oracle data where the code consults the clock or the RNG. -/
inductive Act where
  | start (g : Nat → Nat) (k : Nat) (v : Vocab) (topic mode newId : String) (now : Int)
  | question (sid : String) (index : Int) (now : Int)
  | submit (sid : String) (current_index selected_option_index : Int) (now : Int)
  | result (sid : String) (now : Int)
  | reset (sid : String)

/-- Effect of one operation on the session store. -/
def applyAct (store : Store) : Act → Store
  | .start g k v topic mode newId now => (startQuizSession g k v store topic mode newId now).2
  | .question sid index now => (getQuestionData now store sid index).2
  | .submit sid ci si now => (submitAnswer now store sid ci si).2
  | .result sid now => (getResultData now store sid).2
  | .reset sid => resetSession store sid

/-- Effect of a sequence of operations, oldest first. -/
def run (acts : List Act) (store : Store) : Store :=
  acts.foldl applyAct store

/-- The session id brought into existence by an operation, if any. -/
def createsId : Act → Option String
  | .start _ _ _ _ _ newId _ => some newId
  | _ => none

/-! Basic laws of the store operations. -/

theorem lookup_eraseStore (store : Store) (sid sid2 : String) :
    lookupStore (eraseStore store sid) sid2 =
      if sid2 = sid then none else lookupStore store sid2 := by
  induction store with
  | nil => simp [lookupStore, eraseStore]
  | cons p rest ih =>
    by_cases hp : p.1 = sid
    · simp only [eraseStore, if_pos hp]
      rw [ih]
      by_cases h2 : sid2 = sid
      · simp [h2]
      · have hps : ¬ p.1 = sid2 := fun h => h2 (by rw [← h, hp])
        simp [lookupStore, h2, hps]
    · simp only [eraseStore, if_neg hp]
      by_cases hps : p.1 = sid2
      · have h2 : ¬ sid2 = sid := fun h => hp (by rw [hps, h])
        simp [lookupStore, hps, h2]
      · simp only [lookupStore, if_neg hps]
        rw [ih]

theorem lookup_setStore (store : Store) (sid sid2 : String) (v : SessionData) :
    lookupStore (setStore store sid v) sid2 =
      if sid2 = sid then some v else lookupStore store sid2 := by
  induction store with
  | nil =>
    by_cases h2 : sid2 = sid
    · simp [setStore, lookupStore, h2]
    · have hss : ¬ sid = sid2 := fun h => h2 h.symm
      simp [setStore, lookupStore, h2, hss]
  | cons p rest ih =>
    by_cases hp : p.1 = sid
    · simp only [setStore, if_pos hp]
      by_cases h2 : sid2 = sid
      · simp [lookupStore, h2]
      · have hps : ¬ p.1 = sid2 := fun h => h2 (by rw [← h, hp])
        have hss : ¬ sid = sid2 := fun h => h2 h.symm
        simp [lookupStore, h2, hps, hss]
    · simp only [setStore, if_neg hp]
      by_cases hps : p.1 = sid2
      · have h2 : ¬ sid2 = sid := fun h => hp (by rw [hps, h])
        simp [lookupStore, hps, h2]
      · simp only [lookupStore, if_neg hps]
        rw [ih]

/-! Characterisation of the lazy-expiry lookup. -/

theorem gas_eq_some {now : Int} {store : Store} {sid : String} {s : SessionData}
    {st : Store} (h : getActiveSession now store sid = (some s, st)) :
    sid ≠ "" ∧ lookupStore store sid = some s ∧
      now - s.created_at ≤ sessionTimeoutMinutes ∧ st = store := by
  unfold getActiveSession at h
  by_cases h0 : sid = ""
  · simp [h0] at h
  · rw [if_neg h0] at h
    rcases hl : lookupStore store sid with _ | s0
    · rw [hl] at h; simp at h
    · rw [hl] at h
      simp only [] at h
      split_ifs at h with ht
      · simp at h
      · rw [Prod.mk.injEq, Option.some.injEq] at h
        rcases h with ⟨rfl, rfl⟩
        exact ⟨h0, rfl, by omega, rfl⟩

theorem gas_active {now : Int} {store : Store} {sid : String} {s : SessionData}
    (h0 : sid ≠ "") (hl : lookupStore store sid = some s)
    (ht : now - s.created_at ≤ sessionTimeoutMinutes) :
    getActiveSession now store sid = (some s, store) := by
  unfold getActiveSession
  rw [if_neg h0, hl]
  simp only []
  rw [if_neg (by omega)]

theorem gas_expired {now : Int} {store : Store} {sid : String} {s : SessionData}
    (h0 : sid ≠ "") (hl : lookupStore store sid = some s)
    (ht : sessionTimeoutMinutes < now - s.created_at) :
    getActiveSession now store sid = (none, eraseStore store sid) := by
  unfold getActiveSession
  rw [if_neg h0, hl]
  simp only []
  rw [if_pos ht]

theorem gas_snd_cases (now : Int) (store : Store) (sid : String) :
    (getActiveSession now store sid).2 = store ∨
      (getActiveSession now store sid).2 = eraseStore store sid := by
  unfold getActiveSession
  by_cases h0 : sid = ""
  · left; simp [h0]
  · rw [if_neg h0]
    rcases hl : lookupStore store sid with _ | s0
    · left; rfl
    · simp only []
      split_ifs
      · right; rfl
      · left; rfl

/-! Shape lemmas for the three session routes. -/

theorem getQuestionData_snd (now : Int) (store : Store) (sid : String) (i : Int) :
    (getQuestionData now store sid i).2 = (getActiveSession now store sid).2 := by
  unfold getQuestionData
  rcases h : getActiveSession now store sid with ⟨o, st⟩
  cases o
  · rfl
  · dsimp only
    split_ifs <;> rfl

theorem getResultData_snd (now : Int) (store : Store) (sid : String) :
    (getResultData now store sid).2 = (getActiveSession now store sid).2 := by
  unfold getResultData
  rcases h : getActiveSession now store sid with ⟨o, st⟩
  cases o <;> rfl

/-- Everything `submit_answer` can do to the store: either it only performs
the lazy-expiry lookup, or the session was active and the stored state is
replaced by the same session extended with exactly one answer record and
the matching conditional score increment. -/
theorem submitAnswer_snd_cases (now : Int) (store : Store) (sid : String)
    (ci si : Int) :
    (submitAnswer now store sid ci si).2 = (getActiveSession now store sid).2 ∨
      ∃ s s1 r, getActiveSession now store sid = (some s, store) ∧
        (submitAnswer now store sid ci si).2 = setStore store sid s1 ∧
        (submitAnswer now store sid ci si).1 = .ok r ∧
        s1.prepared_questions = s.prepared_questions ∧
        s1.total_questions = s.total_questions ∧
        s1.topic = s.topic ∧ s1.created_at = s.created_at ∧ s1.mode = s.mode ∧
        s1.answers = s.answers ++ [r] ∧
        s1.correct_count = s.correct_count + (if r.is_correct then 1 else 0) := by
  unfold submitAnswer
  rcases h : getActiveSession now store sid with ⟨o, st⟩
  cases o with
  | none => left; rfl
  | some s =>
    have hst : st = store := (gas_eq_some h).2.2.2
    subst hst
    dsimp only
    by_cases h1 : 0 ≤ ci ∧ ci < (s.total_questions : Int)
    · rw [if_pos h1]
      by_cases h2 : ci.toNat < s.answers.length
      · rw [if_pos h2]; left; rfl
      · rw [if_neg h2]
        by_cases h3 : 0 ≤ si ∧
            si < ((s.prepared_questions.getD ci.toNat defaultQuestion).options.length : Int)
        · rw [if_pos h3]
          right
          exact ⟨s, _, _, rfl, rfl, rfl, rfl, rfl, rfl, rfl, rfl, rfl, rfl⟩
        · rw [if_neg h3]; left; rfl
    · rw [if_neg h1]; left; rfl

/-- `pyRound num den` is a nearest integer to `num / den`, and on an exact
half it is the even one: the distance `|pyRound * den - num|` is at most
`den / 2`, with ties resolved to an even value. -/
theorem pyRound_spec (num den : Nat) (hden : 0 < den) :
    2 * ((pyRound num den : Int) * den - num).natAbs ≤ den ∧
      (2 * ((pyRound num den : Int) * den - num).natAbs = den →
        pyRound num den % 2 = 0) := by
  have hqr : den * (num / den) + num % den = num := Nat.div_add_mod num den
  have hr : num % den < den := Nat.mod_lt _ hden
  have hnum : (num : Int) = (den : Int) * ((num / den : Nat) : Int) + ((num % den : Nat) : Int) := by
    exact_mod_cast hqr.symm
  have hc1 : ((num / den : Nat) : Int) * den - num = -((num % den : Nat) : Int) := by
    rw [hnum]; ring
  have hc2 : ((num / den + 1 : Nat) : Int) * den - num = (den : Int) - ((num % den : Nat) : Int) := by
    rw [hnum]; push_cast; ring
  unfold pyRound
  split_ifs with h1 h2 h3
  · rw [hc1]
    constructor
    · omega
    · intro h; omega
  · rw [hc2]
    constructor
    · omega
    · intro h; omega
  · rw [hc1]
    constructor
    · omega
    · intro h; exact h3
  · rw [hc2]
    constructor
    · omega
    · intro h; omega

/-- Elimination form for a successful `get_question_data` call: the store is
untouched and every returned field is read off the stored session. -/
theorem getQuestionData_ok {now : Int} {store : Store} {sid : String}
    {i : Int} {w : String} {o : List String} {ci t : Nat}
    {r : Option AnswerRecord} {st : Store}
    (h : getQuestionData now store sid i = (.ok w o ci t r, st)) :
    st = store ∧ ∃ s, lookupStore store sid = some s ∧
      getActiveSession now store sid = (some s, store) ∧
      0 ≤ i ∧ i < (s.total_questions : Int) ∧
      w = (s.prepared_questions.getD i.toNat defaultQuestion).word ∧
      o = (s.prepared_questions.getD i.toNat defaultQuestion).options ∧
      ci = i.toNat ∧ t = s.total_questions ∧ r = s.answers[i.toNat]? := by
  unfold getQuestionData at h
  rcases hg : getActiveSession now store sid with ⟨oo, st2⟩
  rw [hg] at h
  cases oo with
  | none => simp at h
  | some s =>
    simp only [] at h
    obtain ⟨-, -, -, hst2⟩ := gas_eq_some hg
    subst hst2
    split_ifs at h with hidx
    · rw [Prod.mk.injEq, QuestionResult.ok.injEq] at h
      obtain ⟨⟨hw, ho, hci, ht, hrec⟩, hst⟩ := h
      refine ⟨hst.symm, s, (gas_eq_some hg).2.1, rfl, hidx.1, hidx.2,
        hw.symm, ho.symm, hci.symm, ht.symm, hrec.symm⟩
    · simp at h

/-! The running-score invariant and its preservation by every operation. -/

/-- Invariant: every stored session's `correct_count` equals the number of
its recorded answers whose `is_correct` field is true. -/
def CorrectCountInv (store : Store) : Prop :=
  ∀ sid s, lookupStore store sid = some s →
    s.correct_count = s.answers.countP (fun r => r.is_correct)

theorem CorrectCountInv.erase {store : Store} (h : CorrectCountInv store)
    (sid : String) : CorrectCountInv (eraseStore store sid) := by
  intro sid2 s hl
  rw [lookup_eraseStore] at hl
  split_ifs at hl
  exact h sid2 s hl

theorem CorrectCountInv.set {store : Store} (h : CorrectCountInv store)
    (sid : String) (v : SessionData)
    (hv : v.correct_count = v.answers.countP (fun r => r.is_correct)) :
    CorrectCountInv (setStore store sid v) := by
  intro sid2 s hl
  rw [lookup_setStore] at hl
  split_ifs at hl
  · rw [Option.some.injEq] at hl; rw [← hl]; exact hv
  · exact h sid2 s hl

theorem CorrectCountInv.gas {store : Store} (h : CorrectCountInv store)
    (now : Int) (sid : String) :
    CorrectCountInv (getActiveSession now store sid).2 := by
  rcases gas_snd_cases now store sid with hc | hc <;> rw [hc]
  · exact h
  · exact h.erase sid

theorem CorrectCountInv.applyAct {store : Store} (h : CorrectCountInv store)
    (a : Act) : CorrectCountInv (applyAct store a) := by
  cases a with
  | start g k v topic mode newId now =>
    simp only [Wlingo.applyAct, startQuizSession]
    refine h.set newId _ ?_
    rfl
  | question sid index now =>
    show CorrectCountInv (getQuestionData now store sid index).2
    rw [getQuestionData_snd]
    exact h.gas now sid
  | result sid now =>
    show CorrectCountInv (getResultData now store sid).2
    rw [getResultData_snd]
    exact h.gas now sid
  | reset sid =>
    exact h.erase sid
  | submit sid ci si now =>
    show CorrectCountInv (submitAnswer now store sid ci si).2
    rcases submitAnswer_snd_cases now store sid ci si with hc | hc
    · rw [hc]; exact h.gas now sid
    · obtain ⟨s, s1, r, hgas, hsnd, -, -, -, -, -, -, hans, hcc⟩ := hc
      rw [hsnd]
      refine h.set sid s1 ?_
      rw [hans, hcc, List.countP_append, h sid s (gas_eq_some hgas).2.1]
      simp [List.countP_cons]

theorem CorrectCountInv.run {store : Store} (h : CorrectCountInv store)
    (acts : List Act) : CorrectCountInv (Wlingo.run acts store) := by
  induction acts generalizing store with
  | nil => exact h
  | cons a rest ih => exact ih (h.applyAct a)

/-! Preservation of a session's frozen question list by every operation
that does not re-create the same session id. -/

theorem applyAct_lookup_none {store : Store} {a : Act} {sid : String}
    (hna : createsId a ≠ some sid) (h : lookupStore store sid = none) :
    lookupStore (applyAct store a) sid = none := by
  cases a with
  | start g k v topic mode newId now =>
    show lookupStore (setStore store newId _) sid = none
    rw [lookup_setStore, if_neg, h]
    intro he
    exact hna (by rw [createsId, he])
  | question sid2 index now =>
    show lookupStore (getQuestionData now store sid2 index).2 sid = none
    rw [getQuestionData_snd]
    rcases gas_snd_cases now store sid2 with hc | hc <;> rw [hc]
    · exact h
    · rw [lookup_eraseStore]
      split_ifs <;> simp [h]
  | result sid2 now =>
    show lookupStore (getResultData now store sid2).2 sid = none
    rw [getResultData_snd]
    rcases gas_snd_cases now store sid2 with hc | hc <;> rw [hc]
    · exact h
    · rw [lookup_eraseStore]
      split_ifs <;> simp [h]
  | reset sid2 =>
    show lookupStore (eraseStore store sid2) sid = none
    rw [lookup_eraseStore]
    split_ifs <;> simp [h]
  | submit sid2 ci si now =>
    show lookupStore (submitAnswer now store sid2 ci si).2 sid = none
    rcases submitAnswer_snd_cases now store sid2 ci si with hc | hc
    · rw [hc]
      rcases gas_snd_cases now store sid2 with hc2 | hc2 <;> rw [hc2]
      · exact h
      · rw [lookup_eraseStore]
        split_ifs <;> simp [h]
    · obtain ⟨s, s1, r, hgas, hsnd, -⟩ := hc
      rw [hsnd, lookup_setStore, if_neg, h]
      intro he
      rw [he] at h
      rw [(gas_eq_some hgas).2.1] at h
      exact absurd h (by simp)

theorem run_lookup_none {store : Store} {acts : List Act} {sid : String}
    (hna : ∀ a ∈ acts, createsId a ≠ some sid)
    (h : lookupStore store sid = none) :
    lookupStore (run acts store) sid = none := by
  induction acts generalizing store with
  | nil => exact h
  | cons a rest ih =>
    exact ih (fun b hb => hna b (List.mem_cons_of_mem a hb))
      (applyAct_lookup_none (hna a (List.mem_cons_self a rest)) h)

theorem applyAct_prepared {store : Store} {a : Act} {sid : String}
    {s : SessionData} (hna : createsId a ≠ some sid)
    (h : lookupStore store sid = some s) :
    lookupStore (applyAct store a) sid = none ∨
      ∃ s2, lookupStore (applyAct store a) sid = some s2 ∧
        s2.prepared_questions = s.prepared_questions := by
  cases a with
  | start g k v topic mode newId now =>
    right
    refine ⟨s, ?_, rfl⟩
    simp only [Wlingo.applyAct, startQuizSession]
    rw [lookup_setStore, if_neg, h]
    intro he
    exact hna (by rw [createsId, he])
  | question sid2 index now =>
    simp only [Wlingo.applyAct]
    rw [getQuestionData_snd]
    rcases gas_snd_cases now store sid2 with hc | hc <;> rw [hc]
    · exact Or.inr ⟨s, h, rfl⟩
    · rw [lookup_eraseStore]
      split_ifs
      · exact Or.inl rfl
      · exact Or.inr ⟨s, h, rfl⟩
  | result sid2 now =>
    simp only [Wlingo.applyAct]
    rw [getResultData_snd]
    rcases gas_snd_cases now store sid2 with hc | hc <;> rw [hc]
    · exact Or.inr ⟨s, h, rfl⟩
    · rw [lookup_eraseStore]
      split_ifs
      · exact Or.inl rfl
      · exact Or.inr ⟨s, h, rfl⟩
  | reset sid2 =>
    simp only [Wlingo.applyAct, resetSession]
    rw [lookup_eraseStore]
    split_ifs
    · exact Or.inl rfl
    · exact Or.inr ⟨s, h, rfl⟩
  | submit sid2 ci si now =>
    simp only [Wlingo.applyAct]
    rcases submitAnswer_snd_cases now store sid2 ci si with hc | hc
    · rw [hc]
      rcases gas_snd_cases now store sid2 with hc2 | hc2 <;> rw [hc2]
      · exact Or.inr ⟨s, h, rfl⟩
      · rw [lookup_eraseStore]
        split_ifs
        · exact Or.inl rfl
        · exact Or.inr ⟨s, h, rfl⟩
    · obtain ⟨s0, s1, r, hgas, hsnd, -, hprep, -⟩ := hc
      rw [hsnd, lookup_setStore]
      split_ifs with he
      · right
        refine ⟨s1, rfl, ?_⟩
        rw [hprep]
        have hl0 : lookupStore store sid2 = some s0 := (gas_eq_some hgas).2.1
        rw [he] at h
        rw [hl0, Option.some.injEq] at h
        rw [h]
      · exact Or.inr ⟨s, h, rfl⟩

theorem run_prepared {acts : List Act} {store : Store} {sid : String}
    {s : SessionData} (hna : ∀ a ∈ acts, createsId a ≠ some sid)
    (h : lookupStore store sid = some s) :
    ∀ s2, lookupStore (run acts store) sid = some s2 →
      s2.prepared_questions = s.prepared_questions := by
  induction acts generalizing store s with
  | nil =>
    intro s2 h2
    simp only [run, List.foldl_nil] at h2
    rw [h, Option.some.injEq] at h2
    rw [← h2]
  | cons a rest ih =>
    intro s2 h2
    have h2a : lookupStore (run rest (applyAct store a)) sid = some s2 := h2
    have hrest : ∀ b ∈ rest, createsId b ≠ some sid :=
      fun b hb => hna b (List.mem_cons_of_mem a hb)
    rcases applyAct_prepared (hna a (List.mem_cons_self a rest)) h with hc | ⟨s3, hc, hp⟩
    · rw [run_lookup_none hrest hc] at h2a
      exact absurd h2a (by simp)
    · rw [ih hrest hc s2 h2a, hp]

/-! Properties of the random-sampling primitives. -/

theorem sample_length {α : Type} [DecidableEq α] (g : Nat → Nat) :
    ∀ (n : Nat) (l : List α) (k : Nat), n ≤ l.length →
      ((sample g k l n).1).length = n := by
  intro n
  induction n with
  | zero => intro l k _; simp [sample]
  | succ n ih =>
    intro l k h
    cases l with
    | nil => simp at h
    | cons a0 l1 =>
      simp only [sample]
      have hmem : (a0 :: l1).get ⟨g k % (a0 :: l1).length, Nat.mod_lt _ (Nat.succ_pos _)⟩ ∈ a0 :: l1 :=
        List.get_mem _ _ _
      have herase : ((a0 :: l1).erase ((a0 :: l1).get ⟨g k % (a0 :: l1).length, Nat.mod_lt _ (Nat.succ_pos _)⟩)).length = l1.length := by
        rw [List.length_erase_of_mem hmem]
        simp
      rw [List.length_cons, ih _ _ (by rw [herase]; simpa using h)]

theorem sample_subset {α : Type} [DecidableEq α] (g : Nat → Nat) :
    ∀ (n : Nat) (l : List α) (k : Nat), (sample g k l n).1 ⊆ l := by
  intro n
  induction n with
  | zero => intro l k; simp [sample]
  | succ n ih =>
    intro l k
    cases l with
    | nil => simp [sample]
    | cons a0 l1 =>
      simp only [sample]
      intro x hx
      rcases List.mem_cons.mp hx with hx | hx
      · rw [hx]; exact List.get_mem _ _ _
      · exact List.erase_subset _ _ (ih _ _ hx)

theorem sample_nodup {α : Type} [DecidableEq α] (g : Nat → Nat) :
    ∀ (n : Nat) (l : List α) (k : Nat), l.Nodup → ((sample g k l n).1).Nodup := by
  intro n
  induction n with
  | zero => intro l k _; simp [sample]
  | succ n ih =>
    intro l k hl
    cases l with
    | nil => simp [sample]
    | cons a0 l1 =>
      simp only [sample]
      rw [List.nodup_cons]
      refine ⟨?_, ih _ _ (hl.erase _)⟩
      intro hx
      have hxe := sample_subset g n _ (k + 1) hx
      rw [hl.mem_erase_iff] at hxe
      exact hxe.1 rfl

theorem sample_perm {α : Type} [DecidableEq α] (g : Nat → Nat) :
    ∀ (n : Nat) (l : List α) (k : Nat), l.length = n →
      ((sample g k l n).1).Perm l := by
  intro n
  induction n with
  | zero =>
    intro l k h
    rw [List.length_eq_zero] at h
    subst h
    simp [sample]
  | succ n ih =>
    intro l k h
    cases l with
    | nil => simp at h
    | cons a0 l1 =>
      simp only [sample]
      have hmem : (a0 :: l1).get ⟨g k % (a0 :: l1).length, Nat.mod_lt _ (Nat.succ_pos _)⟩ ∈ a0 :: l1 :=
        List.get_mem _ _ _
      have herase : ((a0 :: l1).erase ((a0 :: l1).get ⟨g k % (a0 :: l1).length, Nat.mod_lt _ (Nat.succ_pos _)⟩)).length = n := by
        rw [List.length_erase_of_mem hmem]
        simpa using h
      exact ((ih _ (k + 1) herase).cons _).trans (List.perm_cons_erase hmem).symm

theorem shuffle_perm {α : Type} [DecidableEq α] (g : Nat → Nat) (k : Nat)
    (l : List α) : ((shuffle g k l).1).Perm l :=
  sample_perm g l.length l k rfl

/-! Properties of the distractor construction. -/

theorem padOptions_len0 {l : List String} (h : l.length = 0) :
    padOptions l = ["Option 1", "Option 2", "Option 3"] := by
  rw [List.length_eq_zero] at h
  subst h
  rfl

theorem padOptions_len1 {l : List String} (h : l.length = 1) :
    padOptions l = l ++ ["Option 2", "Option 3"] := by
  rw [List.length_eq_one] at h
  obtain ⟨a, rfl⟩ := h
  simp only [padOptions, padLoop]
  norm_num
  exact ⟨by decide, by decide⟩

theorem padOptions_len2 {l : List String} (h : l.length = 2) :
    padOptions l = l ++ ["Option 3"] := by
  rw [List.length_eq_two] at h
  obtain ⟨a, b, rfl⟩ := h
  simp only [padOptions, padLoop]
  norm_num
  decide

theorem distinctWrongs_nodup (correct : String) (ws : List WordPair) :
    (distinctWrongs correct ws).Nodup :=
  List.Nodup.filter _ (List.nodup_dedup _)

theorem distinctWrongs_mem_ne {correct : String} {ws : List WordPair}
    {x : String} (h : x ∈ distinctWrongs correct ws) : x ≠ correct := by
  have := (List.mem_filter.mp h).2
  simpa using this

theorem distinctWrongs_subset (correct : String) (ws : List WordPair) :
    distinctWrongs correct ws ⊆ ws.map WordPair.translation :=
  fun _ hx => List.dedup_subset _ (List.mem_filter.mp hx).1

/-- Absence of placeholder-name collisions: no translation in the pool is
itself one of the synthesised degraded-mode strings. -/
def placeholderFree (ws : List WordPair) : Prop :=
  ∀ t ∈ ws.map WordPair.translation,
    t ≠ "Option 1" ∧ t ≠ "Option 2" ∧ t ≠ "Option 3"

theorem generateOptions_spec (g : Nat → Nat) (k : Nat) (correct : String)
    (ws : List WordPair) :
    ((generateOptions g k correct ws).1).length = 4 ∧
      correct ∈ (generateOptions g k correct ws).1 ∧
      ((3 ≤ (distinctWrongs correct ws).length ∨
          (placeholderFree ws ∧ correct ∈ ws.map WordPair.translation)) →
        ((generateOptions g k correct ws).1).Nodup ∧
          ((generateOptions g k correct ws).1).count correct = 1) := by
  unfold generateOptions
  by_cases hlen : (distinctWrongs correct ws).length < 3
  · rw [if_pos hlen]
    have hperm := shuffle_perm g k (correct :: padOptions (distinctWrongs correct ws))
    have hbase : (correct :: padOptions (distinctWrongs correct ws)).Nodup →
        ((shuffle g k (correct :: padOptions (distinctWrongs correct ws))).1).Nodup ∧
          ((shuffle g k (correct :: padOptions (distinctWrongs correct ws))).1).count correct = 1 := by
      intro hnd
      refine ⟨hperm.nodup_iff.mpr hnd, ?_⟩
      rw [hperm.count_eq]
      exact List.count_eq_one_of_mem hnd (List.mem_cons_self _ _)
    have hpadlen : (padOptions (distinctWrongs correct ws)).length = 3 ∧
        ∀ x ∈ padOptions (distinctWrongs correct ws),
          x ∈ distinctWrongs correct ws ∨ x = "Option 1" ∨ x = "Option 2" ∨ x = "Option 3" := by
      interval_cases hdw : (distinctWrongs correct ws).length
      · rw [padOptions_len0 hdw]
        exact ⟨rfl, by intro x hx; simp at hx; rcases hx with h | h | h <;> simp [h]⟩
      · rw [padOptions_len1 hdw]
        constructor
        · simp [hdw]
        · intro x hx
          rcases List.mem_append.mp hx with hx | hx
          · exact Or.inl hx
          · simp at hx; rcases hx with h | h <;> simp [h]
      · rw [padOptions_len2 hdw]
        constructor
        · simp [hdw]
        · intro x hx
          rcases List.mem_append.mp hx with hx | hx
          · exact Or.inl hx
          · simp at hx; simp [hx]
    refine ⟨?_, ?_, ?_⟩
    · rw [hperm.length_eq, List.length_cons, hpadlen.1]
    · exact hperm.mem_iff.mpr (List.mem_cons_self _ _)
    · rintro (hge | ⟨hpf, hcor⟩)
      · omega
      · refine hbase ?_
        rw [List.nodup_cons]
        constructor
        · intro hc
          rcases hpadlen.2 correct hc with hc2 | hc2 | hc2 | hc2
          · exact distinctWrongs_mem_ne hc2 rfl
          · exact (hpf correct hcor).1 hc2
          · exact (hpf correct hcor).2.1 hc2
          · exact (hpf correct hcor).2.2 hc2
        · interval_cases hdw : (distinctWrongs correct ws).length
          · rw [padOptions_len0 hdw]; decide
          · rw [padOptions_len1 hdw]
            obtain ⟨a, ha⟩ := List.length_eq_one.mp hdw
            rw [ha]
            have hamem : a ∈ distinctWrongs correct ws := by rw [ha]; simp
            have hane := hpf a (distinctWrongs_subset correct ws hamem)
            simp [hane.2.1, hane.2.2]
          · rw [padOptions_len2 hdw]
            obtain ⟨a, b, hab⟩ := List.length_eq_two.mp hdw
            rw [hab]
            have hamem : a ∈ distinctWrongs correct ws := by rw [hab]; simp
            have hbmem : b ∈ distinctWrongs correct ws := by rw [hab]; simp
            have hane := hpf a (distinctWrongs_subset correct ws hamem)
            have hbne := hpf b (distinctWrongs_subset correct ws hbmem)
            have hnd := distinctWrongs_nodup correct ws
            rw [hab, List.nodup_cons] at hnd
            simp [hane.2.2, hbne.2.2]
            exact fun h => (hnd.1 (by simp [h]))
  · rw [if_neg hlen]
    have h3 : 3 ≤ (distinctWrongs correct ws).length := by omega
    have hsmp := sample_length g 3 (distinctWrongs correct ws) k h3
    have hsub := sample_subset g 3 (distinctWrongs correct ws) k
    have hnd := sample_nodup g 3 (distinctWrongs correct ws) k (distinctWrongs_nodup correct ws)
    have hperm := shuffle_perm g (sample g k (distinctWrongs correct ws) 3).2
      (correct :: (sample g k (distinctWrongs correct ws) 3).1)
    refine ⟨?_, ?_, ?_⟩
    · rw [hperm.length_eq, List.length_cons, hsmp]
    · exact hperm.mem_iff.mpr (List.mem_cons_self _ _)
    · intro _
      have hbase : (correct :: (sample g k (distinctWrongs correct ws) 3).1).Nodup := by
        rw [List.nodup_cons]
        exact ⟨fun hc => distinctWrongs_mem_ne (hsub hc) rfl, hnd⟩
      refine ⟨hperm.nodup_iff.mpr hbase, ?_⟩
      rw [hperm.count_eq]
      exact List.count_eq_one_of_mem hbase (List.mem_cons_self _ _)

theorem buildQuestions_length (g : Nat → Nat) (ws : List WordPair) :
    ∀ (items : List WordPair) (k : Nat),
      ((buildQuestions g ws k items).1).length = items.length := by
  intro items
  induction items with
  | nil => intro k; rfl
  | cons item rest ih =>
    intro k
    simp only [buildQuestions, List.length_cons]
    rw [ih]

theorem buildQuestions_mem (g : Nat → Nat) (ws : List WordPair) :
    ∀ (items : List WordPair) (k : Nat) (q : Question),
      q ∈ (buildQuestions g ws k items).1 →
        ∃ item ∈ items, ∃ k2, q.word = item.word ∧
          q.translation = item.translation ∧
          q.options = (generateOptions g k2 item.translation ws).1 := by
  intro items
  induction items with
  | nil => intro k q h; simp [buildQuestions] at h
  | cons item rest ih =>
    intro k q h
    simp only [buildQuestions] at h
    rcases List.mem_cons.mp h with hq | hq
    · exact ⟨item, List.mem_cons_self _ _, k, by rw [hq], by rw [hq], by rw [hq]⟩
    · obtain ⟨item2, hmem, k2, hw, ht, ho⟩ := ih _ q hq
      exact ⟨item2, List.mem_cons_of_mem _ hmem, k2, hw, ht, ho⟩

/-- Everything `RandomQuizGenerator.generate` guarantees about a generated
quiz: exactly `min count poolSize` questions, each built from a pool word,
and each with the option-list properties of `generateOptions`. -/
theorem generate_spec (g : Nat → Nat) (k : Nat) (v : Vocab) (topic : String)
    (count : Nat) :
    ((generate g k v topic count).1).length =
        min count (getWords v topic).length ∧
      ∀ q ∈ (generate g k v topic count).1,
        (∃ item ∈ getWords v topic, q.word = item.word ∧
          q.translation = item.translation) ∧
        q.options.length = 4 ∧ q.translation ∈ q.options ∧
        ((3 ≤ (distinctWrongs q.translation (getWords v topic)).length ∨
            placeholderFree (getWords v topic)) →
          q.options.Nodup ∧ q.options.count q.translation = 1) := by
  unfold generate
  by_cases hempty : getWords v topic = []
  · rw [if_pos hempty]
    constructor
    · simp [hempty]
    · intro q hq
      simp at hq
  · rw [if_neg hempty]
    have hlen := sample_length g (min count (getWords v topic).length)
      (getWords v topic) k (Nat.min_le_right _ _)
    have hsub := sample_subset g (min count (getWords v topic).length)
      (getWords v topic) k
    constructor
    · rw [buildQuestions_length, hlen]
    · intro q hq
      obtain ⟨item, hmem, k2, hw, ht, ho⟩ := buildQuestions_mem g _ _ _ q hq
      have hitem : item ∈ getWords v topic := hsub hmem
      have hspec := generateOptions_spec g k2 item.translation (getWords v topic)
      refine ⟨⟨item, hitem, hw, ht⟩, ?_, ?_, ?_⟩
      · rw [ho]; exact hspec.1
      · rw [ho, ht]; exact hspec.2.1
      · intro hside
        rw [ht] at hside
        have hcor : item.translation ∈ (getWords v topic).map WordPair.translation :=
          List.mem_map_of_mem _ hitem
        have h2 := hspec.2.2 (by rcases hside with hside | hside
                                 · exact Or.inl hside
                                 · exact Or.inr ⟨hside, hcor⟩)
        rw [ho, ht]
        exact h2

/-! Concrete fixtures used by counterexamples and witnesses. -/

/-- A constant random oracle. -/
def gZero : Nat → Nat := fun _ => 0

def q0 : Question := ⟨"w0", "t0", ["t0", "a", "b", "c"]⟩

def q1 : Question := ⟨"w1", "t1", ["t1", "d", "e", "f"]⟩

def q2 : Question := ⟨"w2", "t2", ["g", "t2", "h", "i"]⟩

/-- A fresh three-question session. -/
def sessionThree : SessionData := ⟨[q0, q1, q2], 0, 3, [], 0, "t", "standard"⟩

def storeThree : Store := [("sid", sessionThree)]

/-- The record `submit_answer` builds for question `q2` with option 1. -/
def recThree : AnswerRecord := ⟨"w2", "t2", "t2", true, true⟩

/-- A fresh one-question session (one answer still missing). -/
def sessionIncomplete : SessionData := ⟨[q0], 0, 1, [], 0, "t", "standard"⟩

def storeIncomplete : Store := [("s2", sessionIncomplete)]

/-- An expired session fixture (created at time 0, looked up at time 200). -/
def sessionOld : SessionData := ⟨[q0], 0, 1, [], 0, "t", "standard"⟩

def storeOld : Store := [("sx", sessionOld)]

/-- A topic whose pool contains a translation colliding with a placeholder. -/
def vocabDup : Vocab := [("t", [⟨"w1", "x"⟩, ⟨"w2", "Option 2"⟩])]

/-- A topic with an empty word pool. -/
def vocabEmptyTopic : Vocab := [("t", [])]

/-- A one-word topic. -/
def vocabOne : Vocab := [("t", [⟨"Hund", "dog"⟩])]

/-- The five-word example pool from the design notes. -/
def vocabFive : Vocab :=
  [("animals", [⟨"Hund", "dog"⟩, ⟨"Katze", "cat"⟩, ⟨"Baum", "tree"⟩,
    ⟨"Haus", "house"⟩, ⟨"Wasser", "water"⟩])]

/-! Claim theorems. -/

/-- C2 (counterexample).  `get_result_data` performs no completeness check:
on a valid session with zero of its one answer recorded it returns a normal
result payload instead of failing, refuting "getResult fails with
IncompleteQuizError whenever the number of recorded answers is strictly
less than the total number of questions". -/
theorem c2_incomplete_result_succeeds :
    sessionIncomplete.answers.length < sessionIncomplete.total_questions ∧
      getResultData 0 storeIncomplete "s2" =
        (.ok 0 1 0 [], storeIncomplete) := by
  decide

/-- C2 (amended).  For every valid (non-expired) session — regardless of
how many answers are recorded — `get_result_data` succeeds, leaves the
store unchanged, and reports the current counts together with a percentage
that is a nearest integer to `100 * correctCount / total` with half-values
rounded to even (Python `round`), or `0` when there are no questions. -/
theorem c2_result_reports_current_score (now : Int) (store : Store)
    (sid : String) (s : SessionData) (st : Store)
    (h : getActiveSession now store sid = (some s, st)) :
    ∃ p, getResultData now store sid =
        (.ok s.correct_count s.total_questions p s.answers, store) ∧
      (s.total_questions = 0 → p = 0) ∧
      (0 < s.total_questions →
        2 * ((p : Int) * s.total_questions - s.correct_count * 100).natAbs ≤
            s.total_questions ∧
          (2 * ((p : Int) * s.total_questions - s.correct_count * 100).natAbs =
              s.total_questions → p % 2 = 0)) := by
  have hst : st = store := (gas_eq_some h).2.2.2
  subst hst
  refine ⟨if 0 < s.total_questions then pyRound (s.correct_count * 100) s.total_questions else 0,
    ?_, ?_, ?_⟩
  · unfold getResultData
    rw [h]
  · intro h0
    rw [h0]
    simp
  · intro hpos
    rw [if_pos hpos]
    exact pyRound_spec (s.correct_count * 100) s.total_questions hpos

/-- C2 (witness). -/
theorem c2_result_reports_current_score_witness :
    ∃ p, getResultData 0 storeThree "sid" =
        (.ok sessionThree.correct_count sessionThree.total_questions p
          sessionThree.answers, storeThree) ∧
      (sessionThree.total_questions = 0 → p = 0) ∧
      (0 < sessionThree.total_questions →
        2 * ((p : Int) * sessionThree.total_questions -
            sessionThree.correct_count * 100).natAbs ≤
            sessionThree.total_questions ∧
          (2 * ((p : Int) * sessionThree.total_questions -
              sessionThree.correct_count * 100).natAbs =
              sessionThree.total_questions → p % 2 = 0)) :=
  c2_result_reports_current_score 0 storeThree "sid" sessionThree storeThree
    (by decide)

/-- C3 (code bug).  On a fresh three-question session, submitting at index
2 (greater than the current answers length) succeeds, and an immediate
second submission for the same index 2 is NOT rejected with
AlreadyAnswered: it succeeds again, appends a second copy of the record,
and increments `correct_count` a second time.  The claim's write-once
guarantee fails for any index beyond the dense prefix. -/
theorem c3_gap_resubmission_not_rejected :
    (submitAnswer 0 storeThree "sid" 2 1).1 = .ok recThree ∧
      (submitAnswer 0 (submitAnswer 0 storeThree "sid" 2 1).2 "sid" 2 1).1 =
        .ok recThree ∧
      (submitAnswer 0 (submitAnswer 0 storeThree "sid" 2 1).2 "sid" 2 1).1 ≠
        .alreadyAnswered ∧
      lookupStore
          (submitAnswer 0 (submitAnswer 0 storeThree "sid" 2 1).2 "sid" 2 1).2
          "sid" =
        some ⟨[q0, q1, q2], 2, 3, [recThree, recThree], 0, "t", "standard"⟩ := by
  decide

/-- C4 (code bug).  Submitting at index 2 on a fresh three-question session
appends the record for `questions[2]` at answers position 0, so the stored
answers list is no longer index-aligned with the questions list:
`answers[0].word` is `q2.word`, not `q0.word`. -/
theorem c4_gap_submission_misaligns :
    lookupStore (submitAnswer 0 storeThree "sid" 2 1).2 "sid" =
        some ⟨[q0, q1, q2], 1, 3, [recThree], 0, "t", "standard"⟩ ∧
      recThree.word = q2.word ∧ q0.word ≠ q2.word := by
  decide

/-- C6 (counterexample).  With a vocabulary whose only topic has an empty
pool, the question builder returns the empty sequence for the requested
topic, yet `start_quiz_session` still creates and stores a session (with
zero questions) instead of failing: there is no `EmptyPoolError` path. -/
theorem c6_empty_pool_session_created :
    (generate gZero 0 vocabEmptyTopic "t" testSize).1 = [] ∧
      lookupStore
          (startQuizSession gZero 0 vocabEmptyTopic [] "t" "standard" "sid1" 0).2
          "sid1" =
        some ⟨[], 0, 0, [], 0, "t", "standard"⟩ := by
  decide

/-- C6 (amended).  `start_quiz_session` never fails: for every vocabulary,
store and topic it stores a fresh session under the new id — initialised
with no answers, zero score, the creation time, the requested mode and a
consistent question count — and leaves every other session untouched.  An
unknown or empty topic is silently replaced by the fallback topic rather
than surfacing an error. -/
theorem c6_start_always_creates_session (g : Nat → Nat) (k : Nat) (v : Vocab)
    (store : Store) (topic mode newId : String) (now : Int) :
    (startQuizSession g k v store topic mode newId now).1 = newId ∧
      (∃ data, lookupStore (startQuizSession g k v store topic mode newId now).2
            newId = some data ∧
          data.answers = [] ∧ data.correct_count = 0 ∧
          data.created_at = now ∧ data.mode = mode ∧
          data.total_questions = data.prepared_questions.length) ∧
      ∀ sid2, sid2 ≠ newId →
        lookupStore (startQuizSession g k v store topic mode newId now).2 sid2 =
          lookupStore store sid2 := by
  refine ⟨rfl, ⟨startedSession g k v topic mode now, ?_, rfl, rfl, rfl, rfl, rfl⟩, ?_⟩
  · simp only [startQuizSession]
    rw [lookup_setStore, if_pos rfl]
  · intro sid2 h2
    simp only [startQuizSession]
    rw [lookup_setStore, if_neg h2]

/-- C6 (witness). -/
theorem c6_start_always_creates_session_witness :
    lookupStore
        (startQuizSession gZero 0 vocabEmptyTopic [] "t" "standard" "sidA" 0).2
        "other" =
      lookupStore [] "other" :=
  (c6_start_always_creates_session gZero 0 vocabEmptyTopic [] "t" "standard"
    "sidA" 0).2.2 "other" (by decide)

/-- C8 (confirmed).  A session strictly older than the configured timeout is
rejected by every operation with the session-invalid outcome, is removed
from the store by the first such operation, and any later lookup of the id
finds nothing: an expired session is never returned. -/
theorem c8_expired_session_rejected_and_removed (now now2 : Int)
    (store : Store) (sid : String) (s : SessionData) (i ci si : Int)
    (h0 : sid ≠ "") (hl : lookupStore store sid = some s)
    (ht : sessionTimeoutMinutes < now - s.created_at) :
    getQuestionData now store sid i = (.sessionInvalid, eraseStore store sid) ∧
      submitAnswer now store sid ci si = (.invalidSession, eraseStore store sid) ∧
      getResultData now store sid = (.sessionInvalid, eraseStore store sid) ∧
      lookupStore (eraseStore store sid) sid = none ∧
      getActiveSession now2 (eraseStore store sid) sid =
        (none, eraseStore store sid) := by
  have hgas := gas_expired h0 hl ht
  have hnone : lookupStore (eraseStore store sid) sid = none := by
    rw [lookup_eraseStore, if_pos rfl]
  refine ⟨?_, ?_, ?_, hnone, ?_⟩
  · unfold getQuestionData
    rw [hgas]
  · unfold submitAnswer
    rw [hgas]
  · unfold getResultData
    rw [hgas]
  · unfold getActiveSession
    rw [if_neg h0, hnone]

/-- C8 (witness). -/
theorem c8_expired_session_rejected_and_removed_witness :
    getQuestionData 200 storeOld "sx" 0 =
      (.sessionInvalid, eraseStore storeOld "sx") :=
  (c8_expired_session_rejected_and_removed 200 0 storeOld "sx" sessionOld 0 0 0
    (by decide) (by decide) (by decide)).1

/-- C9 (confirmed).  When a submission reaches the option check (valid
session, index in range, not yet answered) with a chosen option index
outside `[0, len(options))`, `submit_answer` answers "Invalid option" and
the store — hence the session's answers and correct count — is completely
unchanged; the options list is never indexed. -/
theorem c9_invalid_option_rejected_no_change (now : Int) (store : Store)
    (sid : String) (s : SessionData) (ci si : Int)
    (hgas : getActiveSession now store sid = (some s, store))
    (hci : 0 ≤ ci ∧ ci < (s.total_questions : Int))
    (hnew : ¬ ci.toNat < s.answers.length)
    (hsi : ¬ (0 ≤ si ∧ si <
      ((s.prepared_questions.getD ci.toNat defaultQuestion).options.length : Int))) :
    submitAnswer now store sid ci si = (.invalidOption, store) := by
  unfold submitAnswer
  rw [hgas]
  simp only []
  rw [if_pos hci, if_neg hnew, if_neg hsi]

/-- C9 (witness): option index 7 against a four-option question. -/
theorem c9_invalid_option_rejected_no_change_witness :
    submitAnswer 0 storeThree "sid" 0 7 = (.invalidOption, storeThree) :=
  c9_invalid_option_rejected_no_change 0 storeThree "sid" sessionThree 0 7
    (by decide) (by decide) (by decide) (by decide)

/-! The legacy iteration of the application (the `main.py` kept at the
repository root) builds a question's options afresh inside its
`display_question` route instead of storing them: these definitions embed
its `generate_options` helper and the option computation of an unanswered
question view. -/

/-- Legacy `generate_options`: the comprehension
`[w["translation"] for w in all_words if w["translation"] != correct]`
(duplicates kept). -/
def incorrectTranslationsV1 (correct : String) (all_words : List WordPair) :
    List String :=
  (all_words.filter (fun w => decide (w.translation ≠ correct))).map
    WordPair.translation

/-- Legacy padding loop: `while len(wrong_options) < 3: append
(random.choice(incorrect) if incorrect else "Placeholder")`; at most three
iterations, each `random.choice` consuming one oracle draw. -/
def padLoopV1 (g : Nat → Nat) (incorrect : List String) :
    Nat → Nat → List String → List String × Nat
  | 0, k, acc => (acc, k)
  | fuel + 1, k, acc =>
    if acc.length < 3 then
      match incorrect with
      | [] => padLoopV1 g incorrect fuel k (acc ++ ["Placeholder"])
      | a0 :: l1 =>
        padLoopV1 g incorrect fuel (k + 1)
          (acc ++ [(a0 :: l1).get
            ⟨g k % (a0 :: l1).length, Nat.mod_lt _ (Nat.succ_pos _)⟩])
    else (acc, k)

/-- Legacy `generate_options`: sample `min(3, len(incorrect))` wrong
options, pad to three, prepend the correct translation and shuffle. -/
def generateOptionsV1 (g : Nat → Nat) (k : Nat) (correct : String)
    (all_words : List WordPair) : List String × Nat :=
  let incorrect := incorrectTranslationsV1 correct all_words
  let smp := sample g k incorrect (min 3 incorrect.length)
  let padded := padLoopV1 g incorrect 3 smp.2 smp.1
  shuffle g padded.2 (correct :: padded.1)

/-- The options the legacy `display_question` route computes when it
renders the not-yet-answered question at `index`: regenerated from the
live pool on every render, not read from the session. -/
def displayQuestionOptionsV1 (g : Nat → Nat) (k : Nat)
    (test_words all_words : List WordPair) (index : Nat) : List String × Nat :=
  generateOptionsV1 g k ((test_words.getD index ⟨"", ""⟩).translation)
    all_words

/-- A four-word legacy pool. -/
def poolV1 : List WordPair :=
  [⟨"Hund", "dog"⟩, ⟨"Katze", "cat"⟩, ⟨"Baum", "tree"⟩, ⟨"Haus", "house"⟩]

/-- The identity oracle. -/
def gId : Nat → Nat := fun j => j

/-- C1 (counterexample).  In the legacy iteration the claim fails: with the
random draws threaded through the shared generator, two consecutive
displays of the same unanswered question 0 of the same quiz return the
same four option strings in different orders, because `display_question`
re-runs `generate_options` on every view. -/
theorem c1_regenerated_options_differ :
    (displayQuestionOptionsV1 gId 0 poolV1 poolV1 0).1 =
        ["tree", "cat", "house", "dog"] ∧
      (displayQuestionOptionsV1 gId
          (displayQuestionOptionsV1 gId 0 poolV1 poolV1 0).2 poolV1 poolV1
          0).1 =
        ["cat", "house", "dog", "tree"] ∧
      (displayQuestionOptionsV1 gId 0 poolV1 poolV1 0).1 ≠
        (displayQuestionOptionsV1 gId
          (displayQuestionOptionsV1 gId 0 poolV1 poolV1 0).2 poolV1 poolV1
          0).1 := by
  decide

/-- C1 (amended; confirmed for the engine).  In the engine, a question's options are read off the
session's `prepared_questions` list frozen at creation: (1) two successful
`get_question_data` calls for the same session and index — in particular
two consecutive calls before any submission — return identical words,
options (in identical order) and stored records, and touch nothing; (2) no
sequence of operations (short of re-creating the same session id) ever
changes a stored session's `prepared_questions`, so options are never
regenerated. -/
theorem c1_options_frozen_and_idempotent :
    (∀ (now1 now2 : Int) (store : Store) (sid : String) (i : Int)
        (w w2 : String) (o o2 : List String) (ci ci2 t t2 : Nat)
        (r r2 : Option AnswerRecord) (st1 st2 : Store),
        getQuestionData now1 store sid i = (.ok w o ci t r, st1) →
        getQuestionData now2 st1 sid i = (.ok w2 o2 ci2 t2 r2, st2) →
        st1 = store ∧ st2 = store ∧ o2 = o ∧ w2 = w ∧ r2 = r ∧
          ci2 = ci ∧ t2 = t) ∧
      (∀ (acts : List Act) (store : Store) (sid : String) (s s2 : SessionData),
        (∀ a ∈ acts, createsId a ≠ some sid) →
        lookupStore store sid = some s →
        lookupStore (run acts store) sid = some s2 →
        s2.prepared_questions = s.prepared_questions) := by
  constructor
  · intro now1 now2 store sid i w w2 o o2 ci ci2 t t2 r r2 st1 st2 h1 h2
    obtain ⟨hst1, s, hls, -, -, -, hw, ho, hci, ht, hr⟩ := getQuestionData_ok h1
    subst hst1
    obtain ⟨hst2, s2, hls2, -, -, -, hw2, ho2, hci2, ht2, hr2⟩ := getQuestionData_ok h2
    have hss : s2 = s := by
      rw [hls] at hls2
      injection hls2 with hh
      exact hh.symm
    refine ⟨rfl, hst2, ?_, ?_, ?_, ?_, ?_⟩
    · rw [ho2, hss]; exact ho.symm
    · rw [hw2, hss]; exact hw.symm
    · rw [hr2, hss]; exact hr.symm
    · rw [hci2]; exact hci.symm
    · rw [ht2, hss]; exact ht.symm
  · intro acts store sid s s2 hna hl h2
    exact run_prepared hna hl s2 h2

/-- C1 (witness). -/
theorem c1_options_frozen_and_idempotent_witness :
    getQuestionData 0 storeThree "sid" 0 =
        (.ok "w0" ["t0", "a", "b", "c"] 0 3 none, storeThree) ∧
      (["t0", "a", "b", "c"] : List String) = ["t0", "a", "b", "c"] := by
  refine ⟨by decide, ?_⟩
  have h := c1_options_frozen_and_idempotent.1 0 0 storeThree "sid" 0
    "w0" "w0" ["t0", "a", "b", "c"] ["t0", "a", "b", "c"] 0 0 3 3 none none
    storeThree storeThree (by decide) (by decide)
  exact h.2.2.1

/-- C5 (counterexample).  When the pool itself contains the translation
"Option 2" and fewer than three distinct wrong translations exist, the
degraded padding appends a placeholder equal to an existing option: both
generated questions contain the string "Option 2" twice, refuting "contains
no duplicate strings". -/
theorem c5_placeholder_collision_duplicates :
    ((generate gZero 0 vocabDup "t" testSize).1.map Question.options) =
        [["x", "Option 2", "Option 2", "Option 3"],
          ["Option 2", "x", "Option 2", "Option 3"]] ∧
      ¬ ∀ q ∈ (generate gZero 0 vocabDup "t" testSize).1, q.options.Nodup := by
  decide

/-- C5 (amended).  For every topic, oracle and configured size,
`RandomQuizGenerator.generate` produces exactly `min(count, poolSize)`
questions; every option list has length 4 and contains the question's
correct translation; and whenever the pool has at least three distinct
wrong translations for the question — or, in the degraded padded mode,
no pool translation collides with the placeholder strings "Option 1",
"Option 2", "Option 3" — the four options are pairwise distinct and
contain the correct translation exactly once. -/
theorem c5_generate_min_count_and_option_invariants (g : Nat → Nat) (k : Nat)
    (v : Vocab) (topic : String) (count : Nat) :
    ((generate g k v topic count).1).length =
        min count (getWords v topic).length ∧
      ∀ q ∈ (generate g k v topic count).1,
        q.options.length = 4 ∧ q.translation ∈ q.options ∧
          ((3 ≤ (distinctWrongs q.translation (getWords v topic)).length ∨
              placeholderFree (getWords v topic)) →
            q.options.Nodup ∧ q.options.count q.translation = 1) := by
  obtain ⟨h1, h2⟩ := generate_spec g k v topic count
  exact ⟨h1, fun q hq => (h2 q hq).2⟩

/-- C5 (witness): the five-word example pool yields `min 15 5 = 5`
questions. -/
theorem c5_generate_min_count_and_option_invariants_witness :
    ((generate (fun j => j) 0 vocabFive "animals" testSize).1).length =
        min testSize (getWords vocabFive "animals").length ∧
      min testSize (getWords vocabFive "animals").length = 5 :=
  ⟨(c5_generate_min_count_and_option_invariants (fun j => j) 0 vocabFive
      "animals" testSize).1, by decide⟩

/-- C7 (confirmed).  If every session in a store satisfies "correct count
equals the number of recorded answers with `is_correct = true`" (as the
empty store trivially does), then after any sequence of operations —
creations, question views, any number of submissions, result views and
resets — every stored session still satisfies it. -/
theorem c7_correct_count_matches_records (acts : List Act) (store : Store)
    (hinv : CorrectCountInv store) (sid : String) (s : SessionData)
    (h : lookupStore (run acts store) sid = some s) :
    s.correct_count = s.answers.countP (fun r => r.is_correct) :=
  hinv.run acts sid s h

def acts7 : List Act :=
  [.start gZero 0 vocabOne "t" "standard" "w7" 0, .submit "w7" 0 0 0]

def sess7 : SessionData :=
  ⟨[⟨"Hund", "dog", ["dog", "Option 1", "Option 2", "Option 3"]⟩], 1, 1,
    [⟨"Hund", "dog", "dog", true, true⟩], 0, "t", "standard"⟩

/-- C7 (witness): one creation and one correct submission from the empty
store. -/
theorem c7_correct_count_matches_records_witness :
    sess7.correct_count = sess7.answers.countP (fun r => r.is_correct) :=
  c7_correct_count_matches_records acts7 []
    (by intro sid s h; simp [lookupStore] at h) "w7" sess7 (by decide)

/-- C10 (confirmed).  After any of the three per-session operations, if the
session is still stored then its `prepared_questions`, `total_questions`,
`topic`, `created_at` (and `mode`) are unchanged; `get_question_data` and
`get_result_data` change nothing at all, and `submit_answer` either leaves
the session exactly as it was or — precisely when it returns a record —
appends that one record and adds its conditional score increment. -/
theorem c10_session_fields_frame (now : Int) (store : Store) (sid : String)
    (s : SessionData) (i ci si : Int) (h : lookupStore store sid = some s) :
    (∀ s2, lookupStore (getQuestionData now store sid i).2 sid = some s2 →
        s2 = s) ∧
      (∀ s2, lookupStore (getResultData now store sid).2 sid = some s2 →
        s2 = s) ∧
      (∀ s2, lookupStore (submitAnswer now store sid ci si).2 sid = some s2 →
        s2.prepared_questions = s.prepared_questions ∧
          s2.total_questions = s.total_questions ∧ s2.topic = s.topic ∧
          s2.created_at = s.created_at ∧ s2.mode = s.mode ∧
          ((∃ r, (submitAnswer now store sid ci si).1 = .ok r ∧
              s2.answers = s.answers ++ [r] ∧
              s2.correct_count = s.correct_count +
                (if r.is_correct then 1 else 0)) ∨ s2 = s)) := by
  have hq : ∀ st2 : Store, (st2 = store ∨ st2 = eraseStore store sid) →
      ∀ s2, lookupStore st2 sid = some s2 → s2 = s := by
    intro st2 hc s2 h2
    rcases hc with rfl | rfl
    · rw [h] at h2
      injection h2 with hh
      exact hh.symm
    · rw [lookup_eraseStore, if_pos rfl] at h2
      exact absurd h2 (by simp)
  refine ⟨?_, ?_, ?_⟩
  · rw [getQuestionData_snd]
    exact hq _ (gas_snd_cases now store sid)
  · rw [getResultData_snd]
    exact hq _ (gas_snd_cases now store sid)
  · intro s2 h2
    rcases submitAnswer_snd_cases now store sid ci si with hc | hc
    · have hs2 : s2 = s := by
        rw [hc] at h2
        exact hq _ (gas_snd_cases now store sid) s2 h2
      rw [hs2]
      exact ⟨rfl, rfl, rfl, rfl, rfl, Or.inr rfl⟩
    · obtain ⟨s0, s1, r, hgas, hsnd, hfst, hprep, htot, htop, hcreated, hmode,
        hans, hcc⟩ := hc
      have hs0 : s0 = s := by
        have hl0 := (gas_eq_some hgas).2.1
        rw [h] at hl0
        injection hl0 with hh
        exact hh.symm
      rw [hsnd, lookup_setStore, if_pos rfl] at h2
      injection h2 with hh
      rw [← hh, hprep, htot, htop, hcreated, hmode, hs0]
      refine ⟨rfl, rfl, rfl, rfl, rfl, Or.inl ⟨r, hfst, ?_, ?_⟩⟩
      · rw [hans, hs0]
      · rw [hcc, hs0]

def sessionAfter0 : SessionData :=
  ⟨[q0, q1, q2], 1, 3, [⟨"w0", "t0", "t0", true, true⟩], 0, "t", "standard"⟩

/-- C10 (witness): a successful submission at index 0. -/
theorem c10_session_fields_frame_witness :
    sessionAfter0.prepared_questions = sessionThree.prepared_questions ∧
      sessionAfter0.total_questions = sessionThree.total_questions ∧
      sessionAfter0.topic = sessionThree.topic ∧
      sessionAfter0.created_at = sessionThree.created_at ∧
      sessionAfter0.mode = sessionThree.mode ∧
      ((∃ r, (submitAnswer 0 storeThree "sid" 0 0).1 = .ok r ∧
          sessionAfter0.answers = sessionThree.answers ++ [r] ∧
          sessionAfter0.correct_count = sessionThree.correct_count +
            (if r.is_correct then 1 else 0)) ∨ sessionAfter0 = sessionThree) :=
  (c10_session_fields_frame 0 storeThree "sid" sessionThree 0 0 0
    (by decide)).2.2 sessionAfter0 (by decide)

end Wlingo
